import Mathlib

/-!
Verification development for the Katana-ai t-shirt market analyzer.

This file shallowly embeds the Python sources (`services/market_service.py`,
`services/analysis_service.py`, `services/gemini_service.py`,
`services/image_service.py`, `config/market_data.py`, `config/settings.py`)
into Lean 4 and proves properties of the embedded functions.

Modelling conventions:
* Python floats are modelled as exact rationals (`ℚ`); Python's `round`
  (banker's rounding, round-half-to-even) is modelled exactly by `pyRound`.
* The square root taken in `_calculate_market_consistency`
  (`variance ** 0.5`) is not rational in general, so the functions that use
  it are parameterised by a square-root function `sqrt : ℚ → ℚ`; theorems
  that need anything of it assume only `∀ q, 0 ≤ sqrt q`, which holds for
  the true square root and for every sensible approximation of it.
* Python strings are modelled as `List Char`; `str.strip`, `str.find`,
  substring tests and slicing are implemented with Python's semantics.
* External effects (PIL image decoding, the Gemini AI transport,
  `json.loads`) are oracles supplied as explicit inputs, so that every
  pipeline run is a pure function of its oracle environment.
-/

namespace Katana

/-! ### Python numeric primitives -/

/-- Round half to even on `ℚ`, the tie-breaking rule of Python's `round`. -/
def rhe (q : ℚ) : ℤ :=
  if q - ⌊q⌋ < 1/2 then ⌊q⌋
  else if 1/2 < q - ⌊q⌋ then ⌊q⌋ + 1
  else if ⌊q⌋ % 2 = 0 then ⌊q⌋ else ⌊q⌋ + 1

/-- Python's `round(q, n)` on exact rationals. -/
def pyRound (q : ℚ) (n : ℕ) : ℚ := (rhe (q * 10 ^ n) : ℚ) / 10 ^ n

/-- Python's `int(q)`: truncation toward zero. -/
def pyInt (q : ℚ) : ℤ := if 0 ≤ q then ⌊q⌋ else ⌈q⌉

theorem floor_le_rhe (q : ℚ) : ⌊q⌋ ≤ rhe q := by
  unfold rhe; split_ifs <;> omega

theorem rhe_le_floor_add_one (q : ℚ) : rhe q ≤ ⌊q⌋ + 1 := by
  unfold rhe; split_ifs <;> omega

theorem rhe_mono {x y : ℚ} (h : x ≤ y) : rhe x ≤ rhe y := by
  rcases lt_or_eq_of_le (Int.floor_le_floor h) with hf | hf
  · calc rhe x ≤ ⌊x⌋ + 1 := rhe_le_floor_add_one x
    _ ≤ ⌊y⌋ := by omega
    _ ≤ rhe y := floor_le_rhe y
  · have hxy : x - (⌊y⌋ : ℚ) ≤ y - (⌊y⌋ : ℚ) := by linarith
    unfold rhe
    rw [hf]
    split_ifs <;> first | omega | linarith

theorem rhe_intCast (z : ℤ) : rhe (z : ℚ) = z := by
  unfold rhe
  rw [Int.floor_intCast]
  norm_num

theorem pyRound_mono {x y : ℚ} (n : ℕ) (h : x ≤ y) : pyRound x n ≤ pyRound y n := by
  unfold pyRound
  have hp : (0 : ℚ) < 10 ^ n := by positivity
  have hr : ((rhe (x * 10 ^ n) : ℚ)) ≤ (rhe (y * 10 ^ n) : ℚ) := by
    exact_mod_cast rhe_mono (mul_le_mul_of_nonneg_right h (le_of_lt hp))
  rw [div_eq_mul_inv, div_eq_mul_inv]
  exact mul_le_mul_of_nonneg_right hr (by positivity)

theorem rhe_zero : rhe 0 = 0 := by
  unfold rhe
  norm_num

theorem pyRound_nonneg {x : ℚ} (n : ℕ) (h : 0 ≤ x) : 0 ≤ pyRound x n := by
  have h0 : pyRound 0 n = 0 := by
    unfold pyRound
    norm_num [rhe_zero]
  calc (0 : ℚ) = pyRound 0 n := h0.symm
  _ ≤ pyRound x n := pyRound_mono n h

theorem pyRound_le_of_le {x b : ℚ} (n : ℕ) (hb : pyRound b n = b) (h : x ≤ b) :
    pyRound x n ≤ b := hb ▸ pyRound_mono n h

/-- Evaluation helper: `pyRound` when the scaled value rounds down. -/
theorem pyRound_eq_lo {q : ℚ} (n : ℕ) (f : ℤ)
    (h1 : (f : ℚ) ≤ q * 10 ^ n) (h2 : q * 10 ^ n - f < 1/2) :
    pyRound q n = (f : ℚ) / 10 ^ n := by
  have hfl : ⌊q * 10 ^ n⌋ = f := Int.floor_eq_iff.2 ⟨h1, by linarith⟩
  unfold pyRound rhe
  rw [hfl, if_pos h2]

/-- Evaluation helper: `pyRound` when the scaled value rounds up. -/
theorem pyRound_eq_hi {q : ℚ} (n : ℕ) (f : ℤ)
    (h1 : (f : ℚ) ≤ q * 10 ^ n) (h2 : 1/2 < q * 10 ^ n - f) (h3 : q * 10 ^ n < f + 1) :
    pyRound q n = ((f : ℚ) + 1) / 10 ^ n := by
  have hfl : ⌊q * 10 ^ n⌋ = f := Int.floor_eq_iff.2 ⟨h1, h3⟩
  unfold pyRound rhe
  rw [hfl, if_neg (by linarith), if_pos h2]
  push_cast
  ring_nf

/-- Evaluation helper: `pyRound` at a tie with even floor. -/
theorem pyRound_eq_tie_even {q : ℚ} (n : ℕ) (f : ℤ)
    (h1 : q * 10 ^ n - f = 1/2) (h2 : f % 2 = 0) :
    pyRound q n = (f : ℚ) / 10 ^ n := by
  have hfl : ⌊q * 10 ^ n⌋ = f := Int.floor_eq_iff.2 ⟨by linarith, by linarith⟩
  unfold pyRound rhe
  rw [hfl, if_neg (by rw [h1]; norm_num), if_neg (by rw [h1]; norm_num), if_pos h2]

/-- Evaluation helper: `pyRound` at a tie with odd floor. -/
theorem pyRound_eq_tie_odd {q : ℚ} (n : ℕ) (f : ℤ)
    (h1 : q * 10 ^ n - f = 1/2) (h2 : f % 2 ≠ 0) :
    pyRound q n = ((f : ℚ) + 1) / 10 ^ n := by
  have hfl : ⌊q * 10 ^ n⌋ = f := Int.floor_eq_iff.2 ⟨by linarith, by linarith⟩
  unfold pyRound rhe
  rw [hfl, if_neg (by rw [h1]; norm_num), if_neg (by rw [h1]; norm_num), if_neg h2]
  push_cast
  ring_nf

/-! ### Market reference data (`config/market_data.py`) -/

/-- One value of the `MARKET_DATA` dict. -/
structure MarketEntry where
  base_price_min : ℚ
  base_price_max : ℚ
  market_size : String
  currency : String
  trends : List String
  demographics : List String
  seasonal_peaks : List String
  competition_level : String
  market_maturity : String
deriving DecidableEq, Repr

def usaEntry : MarketEntry :=
  { base_price_min := 15, base_price_max := 35, market_size := "large",
    currency := "USD",
    trends := ["sustainability", "minimalism", "vintage", "streetwear"],
    demographics := ["gen_z", "millennials", "gen_x"],
    seasonal_peaks := ["summer", "back_to_school", "holidays"],
    competition_level := "high", market_maturity := "mature" }

def indiaEntry : MarketEntry :=
  { base_price_min := 5, base_price_max := 15, market_size := "massive",
    currency := "INR",
    trends := ["bollywood", "cricket", "festivals", "regional_pride"],
    demographics := ["youth", "millennials"],
    seasonal_peaks := ["festivals", "cricket_season", "summer"],
    competition_level := "high", market_maturity := "growing" }

def ukEntry : MarketEntry :=
  { base_price_min := 12, base_price_max := 28, market_size := "medium",
    currency := "GBP",
    trends := ["british_humor", "football", "music", "royal_themes"],
    demographics := ["millennials", "gen_x"],
    seasonal_peaks := ["summer", "football_season"],
    competition_level := "medium", market_maturity := "mature" }

def germanyEntry : MarketEntry :=
  { base_price_min := 18, base_price_max := 40, market_size := "medium",
    currency := "EUR",
    trends := ["quality", "minimalism", "eco_friendly", "engineering"],
    demographics := ["millennials", "gen_x"],
    seasonal_peaks := ["summer", "oktoberfest"],
    competition_level := "medium", market_maturity := "mature" }

def japanEntry : MarketEntry :=
  { base_price_min := 20, base_price_max := 45, market_size := "medium",
    currency := "JPY",
    trends := ["anime", "kawaii", "tech", "minimalism"],
    demographics := ["youth", "otaku", "salarymen"],
    seasonal_peaks := ["summer", "manga_releases", "tech_events"],
    competition_level := "high", market_maturity := "mature" }

def brazilEntry : MarketEntry :=
  { base_price_min := 8, base_price_max := 20, market_size := "large",
    currency := "BRL",
    trends := ["football", "carnival", "beach", "music"],
    demographics := ["youth", "sports_fans"],
    seasonal_peaks := ["summer", "world_cup", "carnival"],
    competition_level := "medium", market_maturity := "growing" }

def australiaEntry : MarketEntry :=
  { base_price_min := 16, base_price_max := 38, market_size := "medium",
    currency := "AUD",
    trends := ["surf", "outdoor", "casual", "sports"],
    demographics := ["millennials", "outdoor_enthusiasts"],
    seasonal_peaks := ["summer", "sports_season"],
    competition_level := "medium", market_maturity := "mature" }

def canadaEntry : MarketEntry :=
  { base_price_min := 14, base_price_max := 32, market_size := "medium",
    currency := "CAD",
    trends := ["hockey", "nature", "maple", "winter_sports"],
    demographics := ["millennials", "gen_x"],
    seasonal_peaks := ["summer", "hockey_season", "winter_olympics"],
    competition_level := "medium", market_maturity := "mature" }

/-- The `MARKET_DATA` dict, as a keyed lookup. -/
def MARKET_DATA (location : String) : Option MarketEntry :=
  if location = "USA" then some usaEntry
  else if location = "India" then some indiaEntry
  else if location = "UK" then some ukEntry
  else if location = "Germany" then some germanyEntry
  else if location = "Japan" then some japanEntry
  else if location = "Brazil" then some brazilEntry
  else if location = "Australia" then some australiaEntry
  else if location = "Canada" then some canadaEntry
  else none

/-! ### Pricing calculator (`services/market_service.py`, `calculate_pricing`) -/

/-- Return value of `calculate_pricing`: the price-band dict. -/
structure PriceRange where
  min : ℚ
  max : ℚ
  recommended : ℚ
  currency : String
deriving DecidableEq, Repr

/-- The `market_adjustments` dict lookup with default `1.0`. -/
def market_adjustments (location : String) : ℚ :=
  if location = "Germany" then 1.1
  else if location = "Japan" then 1.15
  else if location = "India" then 0.9
  else if location = "Brazil" then 0.95
  else 1

/-- `MarketService.calculate_pricing`.  `self.market_data.get(location,
self.market_data["USA"])` is the lookup with fallback to the USA entry. -/
def calculate_pricing (location : String) (market_score : ℚ) : PriceRange :=
  let market_info := (MARKET_DATA location).getD usaEntry
  let score_multiplier := market_score / 75
  let adjustment := market_adjustments location
  let final_min := pyRound (market_info.base_price_min * score_multiplier * adjustment) 2
  let final_max := pyRound (market_info.base_price_max * score_multiplier * adjustment) 2
  { min := final_min
    max := final_max
    recommended := pyRound ((final_min + final_max) / 2) 2
    currency := market_info.currency }

/-! ### Python string primitives (for `_parse_json_response`) -/

/-- Python's `str.lower()` on the ASCII strings the code compares
(`String.toLower` itself is not kernel-reducible). -/
def pyLower (s : String) : String := ⟨s.data.map Char.toLower⟩

/-- The characters removed by Python's `str.strip()`. -/
def pyIsSpace (c : Char) : Bool :=
  c = ' ' || c = '\t' || c = '\n' || c = '\r' || c = Char.ofNat 11 || c = Char.ofNat 12

def pyLStrip (s : List Char) : List Char := s.dropWhile pyIsSpace

def pyRStrip (s : List Char) : List Char := (s.reverse.dropWhile pyIsSpace).reverse

/-- Python's `str.strip()`. -/
def pyStrip (s : List Char) : List Char := pyRStrip (pyLStrip s)

/-- Index of the first occurrence of `pat` in `s`, if any. -/
def findSub (pat : List Char) : List Char → Option ℕ
  | [] => if pat.isPrefixOf ([] : List Char) then some 0 else none
  | c :: t => if pat.isPrefixOf (c :: t) then some 0 else (findSub pat t).map (· + 1)

/-- Python's `pat in s` substring test. -/
def containsSub (pat s : List Char) : Bool := (findSub pat s).isSome

/-- Python's `s.find(pat, start)` for `0 ≤ start` (the only use in the
source): `-1` when absent, else the first index `≥ start`. -/
def pyFindFrom (pat s : List Char) (start : ℕ) : ℤ :=
  match findSub pat (s.drop start) with
  | some k => (start + k : ℕ)
  | none => -1

/-- Python's slice `s[a:b]`, with negative indices counted from the end. -/
def pySlice (s : List Char) (a b : ℤ) : List Char :=
  let n : ℤ := s.length
  let a' := if a < 0 then max 0 (n + a) else min a n
  let b' := if b < 0 then max 0 (n + b) else min b n
  (s.take b'.toNat).drop a'.toNat

/-- The "backtick" character (code 96). -/
def bt : Char := Char.ofNat 96

/-- The string `"` ++ `""` ++ "`" -- a 3-backtick fence opener/closer. -/
def fence3 : List Char := [bt, bt, bt]

/-- The 7-character tag of a json-labelled fence. -/
def jsonFenceTag : List Char := fence3 ++ ['j', 's', 'o', 'n']

/-! ### Error and JSON values -/

/-- The exception classes of `utils/exceptions.py` plus the Python built-in
errors the services can raise. -/
inductive ErrKind where
  | imageProcessingError
  | aiServiceError
  | analysisServiceError
  | validationError
  | keyError
  | attributeError
deriving DecidableEq, Repr

/-- A raised Python exception: its class and its message. -/
structure PyErr where
  kind : ErrKind
  msg : String
deriving DecidableEq, Repr

/-- Decoded JSON values (`json.loads` output). -/
inductive Json where
  | null
  | bool (b : Bool)
  | num (q : ℚ)
  | str (s : String)
  | arr (elems : List Json)
  | obj (fields : List (String × Json))
deriving BEq, Repr

/-! ### AI gateway (`services/gemini_service.py`) -/

/-- `GeminiService._parse_json_response`.  `J` is the `json.loads` oracle
(`none` models a raised `json.JSONDecodeError`). -/
def _parse_json_response (J : List Char → Option Json) (response_text : List Char) :
    Except PyErr Json :=
  let text := pyStrip response_text
  let text :=
    if containsSub jsonFenceTag text then
      let start := (pyFindFrom jsonFenceTag text 0 + 7).toNat
      let stop := pyFindFrom fence3 text start
      pyStrip (pySlice text start stop)
    else if containsSub fence3 text then
      let start := (pyFindFrom fence3 text 0 + 3).toNat
      let stop := pyFindFrom fence3 text start
      pyStrip (pySlice text start stop)
    else text
  match J text with
  | some j => Except.ok j
  | none => Except.error ⟨ErrKind.aiServiceError, "Invalid JSON response from AI service"⟩

/-- The fixed fallback list of `generate_recommendations`. -/
def default_recommendations : Json :=
  Json.arr [Json.str "Focus on highest scoring markets first",
            Json.str "Implement dynamic pricing strategy",
            Json.str "Target social media marketing"]

/-- Python's `d.get(key, default)`: raises `AttributeError` unless the
value is a dict. -/
def pyDictGet (j : Json) (key : String) (dflt : Json) : Except PyErr Json :=
  match j with
  | Json.obj fields => Except.ok ((fields.lookup key).getD dflt)
  | _ => Except.error ⟨ErrKind.attributeError, "object has no attribute get"⟩

/-- `GeminiService.generate_recommendations`: `aiText` is the outcome of the
model call (exception or raw text); every exception inside the `try` is
absorbed into the fixed default list. -/
def generate_recommendations (J : List Char → Option Json)
    (aiText : Except PyErr (List Char)) : Json :=
  match aiText with
  | Except.error _ => default_recommendations
  | Except.ok t =>
    match _parse_json_response J t with
    | Except.error _ => default_recommendations
    | Except.ok data =>
      match pyDictGet data "recommendations" (Json.arr []) with
      | Except.error _ => default_recommendations
      | Except.ok v => v

/-! ### Data models (`models/data_models.py`) -/

structure DesignFeatures where
  style_category : String
  color_palette : List String
  design_complexity : String
  target_demographic : String
  theme_category : String
  visual_appeal_score : ℚ
  uniqueness_score : ℚ
  brand_potential : String
  typography_quality : Option ℚ := none
  graphic_elements : Option (List String) := none
deriving DecidableEq, Repr

structure MarketAnalysis where
  location : String
  market_score : ℚ
  demand_level : String
  price_range : PriceRange
  competition_level : String
  seasonal_trends : List String
  target_age_groups : List String
  estimated_monthly_sales : ℤ
  market_trends : List String
  success_probability : ℚ
  risk_factors : List String
  opportunities : List String
deriving DecidableEq, Repr

/-! ### Analysis service scoring (`services/analysis_service.py`) -/

/-- The `size_weight` dict lookup of `_calculate_overall_score`. -/
def sizeWeightOf (market_size : String) : ℚ :=
  if market_size = "massive" then 1.5
  else if market_size = "large" then 1.2
  else if market_size = "medium" then 1.0
  else if market_size = "small" then 0.8
  else 1

/-- The `maturity_weight` dict lookup of `_calculate_overall_score`. -/
def maturityWeightOf (market_maturity : String) : ℚ :=
  if market_maturity = "mature" then 1.1
  else if market_maturity = "growing" then 1.3
  else if market_maturity = "emerging" then 1.0
  else 1

/-- The weight of one analysis in `_calculate_overall_score`:
`MARKET_DATA.get(location, {})` with the field defaults `'medium'` and
`'mature'` of the two inner `.get` calls. -/
def marketWeight (location : String) : ℚ :=
  match MARKET_DATA location with
  | some info => sizeWeightOf info.market_size * maturityWeightOf info.market_maturity
  | none => sizeWeightOf "medium" * maturityWeightOf "mature"

/-- `AnalysisService._calculate_overall_score`. -/
def _calculate_overall_score (market_analyses : List MarketAnalysis) : ℚ :=
  if market_analyses.isEmpty then 0
  else
    let total_weighted_score :=
      (market_analyses.map (fun a => a.market_score * marketWeight a.location)).sum
    let total_weight := (market_analyses.map (fun a => marketWeight a.location)).sum
    if 0 < total_weight then pyRound (total_weighted_score / total_weight) 1 else 0

/-- `AnalysisService._calculate_market_consistency`.  `sqrt` stands for the
real square root taken by `variance ** 0.5` (see the file header). -/
def _calculate_market_consistency (sqrt : ℚ → ℚ)
    (market_analyses : List MarketAnalysis) : ℚ :=
  if market_analyses.length < 2 then 80
  else
    let scores := market_analyses.map (fun a => a.market_score)
    let mean_score := scores.sum / (scores.length : ℚ)
    let variance := (scores.map (fun s => (s - mean_score) ^ 2)).sum / (scores.length : ℚ)
    let std_dev := sqrt variance
    pyRound (max 0 (100 - std_dev * 2)) 1

/-- `AnalysisService._calculate_confidence_score`. -/
def _calculate_confidence_score (sqrt : ℚ → ℚ) (design_features : DesignFeatures)
    (market_analyses : List MarketAnalysis) : ℚ :=
  let design_clarity :=
    min 100 (design_features.visual_appeal_score + design_features.uniqueness_score) / 2
  let market_consistency := _calculate_market_consistency sqrt market_analyses
  let data_completeness := (market_analyses.length : ℚ) / 8 * 100
  let confidence :=
    design_clarity * 0.4 + market_consistency * 0.4 + data_completeness * 0.2
  pyRound (min 95 confidence) 1

/-! ### Image service (`services/image_service.py`) -/

/-- What PIL decoding exposes of an image; `decoded = Except.error m` models
`Image.open` raising an exception with message `m`. -/
structure ImgMeta where
  format : String
  width : ℕ
  height : ℕ
deriving DecidableEq, Repr

/-- `ImageService.validate_image`.  `data_len` is `len(image_data)`; the
outer `except` re-wraps the decode failure as
`ImageProcessingError("Invalid image file: ...")`. -/
def validate_image (max_file_size data_len : ℕ) (decoded : Except String ImgMeta) :
    Except PyErr Bool :=
  if max_file_size < data_len then
    Except.error ⟨ErrKind.imageProcessingError, "File size exceeds maximum limit"⟩
  else
    match decoded with
    | Except.error m =>
      Except.error ⟨ErrKind.imageProcessingError, "Invalid image file: " ++ m⟩
    | Except.ok image =>
      if (["jpeg", "jpg", "png", "webp"].contains (pyLower image.format)) = false then
        Except.error ⟨ErrKind.imageProcessingError, "Unsupported image format"⟩
      else if Nat.max image.width image.height < 100 then
        Except.error ⟨ErrKind.imageProcessingError, "Image too small (minimum 100px)"⟩
      else Except.ok true

/-- `ImageService.process_image`, reduced to the data the pipeline uses: the
final `image.size` after the aspect-preserving downscale (`int(dim * ratio)`
truncates) -- the re-encoded bytes themselves only feed the AI oracle. -/
def process_image (max_image_dimension : ℕ) (decoded : Except String ImgMeta) :
    Except PyErr (ℕ × ℕ) :=
  match decoded with
  | Except.error m =>
    Except.error ⟨ErrKind.imageProcessingError, "Image processing failed: " ++ m⟩
  | Except.ok image =>
    let mx := Nat.max image.width image.height
    if max_image_dimension < mx then
      Except.ok (image.width * max_image_dimension / mx,
                 image.height * max_image_dimension / mx)
    else Except.ok (image.width, image.height)

/-! ### Analysis orchestrator (`services/analysis_service.py`) -/

/-- The raw parsed dict an AI market call yields; `none` fields model keys
absent from the model's JSON, defaulted per-field by
`_analyze_single_market`. -/
structure RawJudgment where
  market_score : Option ℚ := none
  demand_level : Option String := none
  competition_level : Option String := none
  seasonal_trends : Option (List String) := none
  target_age_groups : Option (List String) := none
  estimated_monthly_sales : Option ℚ := none
  market_trends : Option (List String) := none
  success_probability : Option ℚ := none
  risk_factors : Option (List String) := none
  opportunities : Option (List String) := none
deriving DecidableEq, Repr

/-- `AnalysisService._analyze_single_market`; `marketAI` is the outcome of
`gemini_service.generate_market_analysis` for each location. -/
def _analyze_single_market (marketAI : String → Except PyErr RawJudgment)
    (location : String) : Except PyErr MarketAnalysis :=
  match MARKET_DATA location with
  | none => Except.error ⟨ErrKind.keyError, location⟩
  | some _market_context =>
    match marketAI location with
    | Except.error e => Except.error e
    | Except.ok a =>
      let price_range := calculate_pricing location (a.market_score.getD 70)
      Except.ok
        { location := location
          market_score := a.market_score.getD 70
          demand_level := a.demand_level.getD "medium"
          price_range := price_range
          competition_level := a.competition_level.getD "medium"
          seasonal_trends := a.seasonal_trends.getD ["year-round"]
          target_age_groups := a.target_age_groups.getD ["18-35"]
          estimated_monthly_sales := pyInt (a.estimated_monthly_sales.getD 1000)
          market_trends := a.market_trends.getD []
          success_probability := a.success_probability.getD 70
          risk_factors := a.risk_factors.getD []
          opportunities := a.opportunities.getD [] }

/-- One AI-gateway call, for tracing which external calls a run makes. -/
inductive AICall where
  | design
  | market (location : String)
  | recommend
deriving DecidableEq, Repr

/-- The oracle environment of one pipeline run: the upload, the PIL decode
result, and the outcome of each external AI call. -/
structure Env where
  max_file_size : ℕ := 5 * 1024 * 1024
  max_image_dimension : ℕ := 1024
  data_len : ℕ
  decoded : Except String ImgMeta
  designAI : Except PyErr DesignFeatures
  marketAI : String → Except PyErr RawJudgment
  recsAI : Except PyErr (List Char)
  jsonDecode : List Char → Option Json

/-- `models/data_models.py` `AnalysisResult` (the wall-clock
`analysis_timestamp` string is omitted from the model). -/
structure AnalysisResult where
  design_features : DesignFeatures
  market_analysis : List MarketAnalysis
  overall_score : ℚ
  recommendations : Json
  confidence_score : ℚ

/-- The `except` clause at the pipeline boundary: any exception `e` is
re-raised as `AnalysisServiceError(f"Analysis pipeline failed: {str(e)}")`. -/
def pipelineFail (e : PyErr) : PyErr :=
  ⟨ErrKind.analysisServiceError, "Analysis pipeline failed: " ++ e.msg⟩

/-- The per-result branch of the fan-in loop: exceptions gathered by
`asyncio.gather(..., return_exceptions=True)` are skipped, successes kept. -/
def okOf? {α : Type} : Except PyErr α → Option α
  | Except.ok a => some a
  | Except.error _ => none

/-- `AnalysisService.analyze_tshirt_design`, as a pure function of the
oracle environment; also returns the trace of AI-gateway calls the run
makes (`gather` resolves each location's sub-task independently, in
dispatch order). -/
def analyze_tshirt_design (sqrt : ℚ → ℚ) (env : Env) (locations : List String) :
    Except PyErr AnalysisResult × List AICall :=
  match validate_image env.max_file_size env.data_len env.decoded with
  | Except.error e => (Except.error (pipelineFail e), [])
  | Except.ok _ =>
  match process_image env.max_image_dimension env.decoded with
  | Except.error e => (Except.error (pipelineFail e), [])
  | Except.ok _processed =>
  match env.designAI with
  | Except.error e => (Except.error (pipelineFail e), [AICall.design])
  | Except.ok design_features =>
    let valid_locations := locations.filter (fun l => (MARKET_DATA l).isSome)
    let market_results := valid_locations.map (_analyze_single_market env.marketAI)
    let market_analyses := market_results.filterMap okOf?
    let calls := AICall.design :: valid_locations.map AICall.market
    if market_analyses.isEmpty then
      (Except.error (pipelineFail ⟨ErrKind.analysisServiceError, "No successful market analyses"⟩),
       calls)
    else
      let overall_score := _calculate_overall_score market_analyses
      let recommendations := generate_recommendations env.jsonDecode env.recsAI
      let confidence_score := _calculate_confidence_score sqrt design_features market_analyses
      (Except.ok
        { design_features := design_features
          market_analysis := market_analyses
          overall_score := overall_score
          recommendations := recommendations
          confidence_score := confidence_score },
       calls ++ [AICall.recommend])

/-! ### Facts about the reference table -/

theorem entry_base_min_nonneg (location : String) :
    0 ≤ ((MARKET_DATA location).getD usaEntry).base_price_min := by
  unfold MARKET_DATA
  split_ifs <;>
    norm_num [usaEntry, indiaEntry, ukEntry, germanyEntry, japanEntry,
      brazilEntry, australiaEntry, canadaEntry]

theorem entry_base_max_nonneg (location : String) :
    0 ≤ ((MARKET_DATA location).getD usaEntry).base_price_max := by
  unfold MARKET_DATA
  split_ifs <;>
    norm_num [usaEntry, indiaEntry, ukEntry, germanyEntry, japanEntry,
      brazilEntry, australiaEntry, canadaEntry]

theorem market_adjustments_nonneg (location : String) :
    0 ≤ market_adjustments location := by
  unfold market_adjustments
  split_ifs <;> norm_num

theorem sizeWeightOf_pos (s : String) : 0 < sizeWeightOf s := by
  unfold sizeWeightOf
  split_ifs <;> norm_num

theorem maturityWeightOf_pos (s : String) : 0 < maturityWeightOf s := by
  unfold maturityWeightOf
  split_ifs <;> norm_num

theorem marketWeight_pos (location : String) : 0 < marketWeight location := by
  unfold marketWeight
  cases MARKET_DATA location with
  | none => exact mul_pos (sizeWeightOf_pos _) (maturityWeightOf_pos _)
  | some info => exact mul_pos (sizeWeightOf_pos _) (maturityWeightOf_pos _)

/-! ### Claim C5 -/

/-- C5: `calculate_pricing` is total (it returns a `PriceRange` for every
location and score, falling back to the `"USA"` reference entry for unknown
locations); its fields follow the claimed formulas, with the adjustment
table Germany 1.1, Japan 1.15, India 0.9, Brazil 0.95, default 1.0, and it
carries the entry's currency.  In particular, for `"USA"` with market score
80 it returns min = 16.0, max = 37.33 (and recommended = 26.66, USD). -/
theorem C5_pricing_formula_and_usa80 :
    (∀ (location : String) (market_score : ℚ),
      (calculate_pricing location market_score).min =
        pyRound (((MARKET_DATA location).getD usaEntry).base_price_min *
          (market_score / 75) *
          (if location = "Germany" then 1.1 else if location = "Japan" then 1.15
           else if location = "India" then 0.9 else if location = "Brazil" then 0.95
           else 1)) 2 ∧
      (calculate_pricing location market_score).max =
        pyRound (((MARKET_DATA location).getD usaEntry).base_price_max *
          (market_score / 75) *
          (if location = "Germany" then 1.1 else if location = "Japan" then 1.15
           else if location = "India" then 0.9 else if location = "Brazil" then 0.95
           else 1)) 2 ∧
      (calculate_pricing location market_score).recommended =
        pyRound (((calculate_pricing location market_score).min +
                  (calculate_pricing location market_score).max) / 2) 2 ∧
      (calculate_pricing location market_score).currency =
        ((MARKET_DATA location).getD usaEntry).currency) ∧
    calculate_pricing "USA" 80 =
      { min := 16, max := 37.33, recommended := 26.66, currency := "USD" } := by
  constructor
  · intro location market_score
    refine ⟨rfl, rfl, rfl, rfl⟩
  · unfold calculate_pricing MARKET_DATA market_adjustments
    simp only [String.reduceEq, reduceIte]
    norm_num [usaEntry]
    refine ⟨?_, ?_, ?_⟩
    · rw [pyRound_eq_lo 2 1600 (by norm_num) (by norm_num)]; norm_num
    · rw [pyRound_eq_lo 2 3733 (by norm_num) (by norm_num)]; norm_num
    · rw [show pyRound (16 : ℚ) 2 = 16 from by
          rw [pyRound_eq_lo 2 1600 (by norm_num) (by norm_num)]; norm_num,
        show pyRound (112/3 : ℚ) 2 = 3733/100 from by
          rw [pyRound_eq_lo 2 3733 (by norm_num) (by norm_num)]; norm_num,
        pyRound_eq_tie_even 2 2666 (by norm_num) (by norm_num)]
      norm_num

/-! ### Claim C7 -/

/-- C7: for a fixed location, the price band of `calculate_pricing` is
pointwise monotone (non-decreasing) in the market score: min, max and
recommended each never decrease when the score increases. -/
theorem C7_pricing_monotone (location : String) (s1 s2 : ℚ) (h : s1 ≤ s2) :
    (calculate_pricing location s1).min ≤ (calculate_pricing location s2).min ∧
    (calculate_pricing location s1).max ≤ (calculate_pricing location s2).max ∧
    (calculate_pricing location s1).recommended ≤
      (calculate_pricing location s2).recommended := by
  have hbmin := entry_base_min_nonneg location
  have hbmax := entry_base_max_nonneg location
  have hadj := market_adjustments_nonneg location
  set e := (MARKET_DATA location).getD usaEntry with he
  have harg : ∀ b : ℚ, 0 ≤ b →
      b * (s1 / 75) * market_adjustments location ≤
      b * (s2 / 75) * market_adjustments location := by
    intro b hb
    have h75 : (0:ℚ) ≤ b * market_adjustments location / 75 := by positivity
    calc b * (s1 / 75) * market_adjustments location
        = (b * market_adjustments location / 75) * s1 := by ring
      _ ≤ (b * market_adjustments location / 75) * s2 :=
          mul_le_mul_of_nonneg_left h h75
      _ = b * (s2 / 75) * market_adjustments location := by ring
  have hmin : (calculate_pricing location s1).min ≤ (calculate_pricing location s2).min := by
    unfold calculate_pricing
    exact pyRound_mono 2 (harg _ hbmin)
  have hmax : (calculate_pricing location s1).max ≤ (calculate_pricing location s2).max := by
    unfold calculate_pricing
    exact pyRound_mono 2 (harg _ hbmax)
  refine ⟨hmin, hmax, ?_⟩
  show pyRound (((calculate_pricing location s1).min + (calculate_pricing location s1).max) / 2) 2 ≤
    pyRound (((calculate_pricing location s2).min + (calculate_pricing location s2).max) / 2) 2
  exact pyRound_mono 2 (by linarith)

/-- Witness for C7 at location `"USA"`, scores 50 and 90. -/
theorem C7_pricing_monotone_witness :
    (50 : ℚ) ≤ 90 ∧
    (calculate_pricing "USA" 50).min ≤ (calculate_pricing "USA" 90).min ∧
    (calculate_pricing "USA" 50).max ≤ (calculate_pricing "USA" 90).max ∧
    (calculate_pricing "USA" 50).recommended ≤ (calculate_pricing "USA" 90).recommended :=
  ⟨by norm_num, C7_pricing_monotone "USA" 50 90 (by norm_num)⟩

/-! ### Claim C6 -/

theorem pyRound95 : pyRound (95 : ℚ) 1 = 95 := by
  rw [pyRound_eq_lo 1 950 (by norm_num) (by norm_num)]; norm_num

theorem consistency_nonneg (sqrt : ℚ → ℚ) (market_analyses : List MarketAnalysis) :
    0 ≤ _calculate_market_consistency sqrt market_analyses := by
  unfold _calculate_market_consistency
  split_ifs
  · norm_num
  · exact pyRound_nonneg 1 (le_max_left 0 _)

/-- C6: for every `DesignFeatures` (whose appeal/uniqueness scores are in
the model's 0-100 domain, here only nonnegativity is needed) and every list
of `MarketAnalysis` records, the confidence score is between 0 and 95. -/
theorem C6_confidence_between_0_and_95 (sqrt : ℚ → ℚ) (design_features : DesignFeatures)
    (market_analyses : List MarketAnalysis)
    (hva : 0 ≤ design_features.visual_appeal_score)
    (huq : 0 ≤ design_features.uniqueness_score) :
    0 ≤ _calculate_confidence_score sqrt design_features market_analyses ∧
    _calculate_confidence_score sqrt design_features market_analyses ≤ 95 := by
  unfold _calculate_confidence_score
  have hdc : (0:ℚ) ≤ min 100 (design_features.visual_appeal_score +
      design_features.uniqueness_score) / 2 := by
    have : (0:ℚ) ≤ min 100 (design_features.visual_appeal_score +
        design_features.uniqueness_score) := le_min (by norm_num) (by linarith)
    linarith
  have hmc := consistency_nonneg sqrt market_analyses
  have hcomp : (0:ℚ) ≤ (market_analyses.length : ℚ) / 8 * 100 := by positivity
  constructor
  · apply pyRound_nonneg
    apply le_min (by norm_num)
    nlinarith
  · exact pyRound_le_of_le 1 pyRound95 (min_le_left _ _)

/-- Witness for C6: a concrete design and a single concrete market. -/
theorem C6_confidence_between_0_and_95_witness :
    (0 : ℚ) ≤ 75 ∧ (0 : ℚ) ≤ 70 ∧
    (0 ≤ _calculate_confidence_score Rat.sqrt
        { style_category := "modern", color_palette := ["blue"],
          design_complexity := "moderate", target_demographic := "millennials",
          theme_category := "abstract", visual_appeal_score := 75,
          uniqueness_score := 70, brand_potential := "medium" } [] ∧
     _calculate_confidence_score Rat.sqrt
        { style_category := "modern", color_palette := ["blue"],
          design_complexity := "moderate", target_demographic := "millennials",
          theme_category := "abstract", visual_appeal_score := 75,
          uniqueness_score := 70, brand_potential := "medium" } [] ≤ 95) :=
  ⟨by norm_num, by norm_num,
   C6_confidence_between_0_and_95 Rat.sqrt _ [] (by norm_num) (by norm_num)⟩

/-! ### Claim C3 -/

/-- The confidence formula exactly as the claim words it (for comparison
with the source's `_calculate_confidence_score`):
`0.4*designClarity + 0.4*marketConsistency + 0.2*dataCompleteness` clamped
to at most 95 and rounded to 1 decimal, with
`designClarity = (visualAppeal + uniqueness) / 2`,
`marketConsistency = 80` for fewer than 2 markets else
`max(0, 100 - 2*stddev(scores))`, and
`dataCompleteness = min(1, surviving/8) * 100`. -/
def confidenceClaimFormula (sqrt : ℚ → ℚ) (design_features : DesignFeatures)
    (market_analyses : List MarketAnalysis) : ℚ :=
  let designClarity :=
    (design_features.visual_appeal_score + design_features.uniqueness_score) / 2
  let marketConsistency :=
    if market_analyses.length < 2 then 80
    else
      let scores := market_analyses.map (fun a => a.market_score)
      let mean := scores.sum / (scores.length : ℚ)
      let variance := (scores.map (fun s => (s - mean) ^ 2)).sum / (scores.length : ℚ)
      max 0 (100 - 2 * sqrt variance)
  let dataCompleteness := min 1 ((market_analyses.length : ℚ) / 8) * 100
  pyRound (min 95 (0.4 * designClarity + 0.4 * marketConsistency + 0.2 * dataCompleteness)) 1

/-- The confidence formula the source actually computes, in closed form:
design clarity is `min(100, visualAppeal + uniqueness) / 2` (the sum is
clamped before halving), market consistency is additionally rounded to one
decimal, and data completeness is `surviving/8 * 100` without the
saturation at 1. -/
def confidenceAmendedFormula (sqrt : ℚ → ℚ) (design_features : DesignFeatures)
    (market_analyses : List MarketAnalysis) : ℚ :=
  let designClarity :=
    min 100 (design_features.visual_appeal_score + design_features.uniqueness_score) / 2
  let marketConsistency :=
    if market_analyses.length < 2 then 80
    else
      let scores := market_analyses.map (fun a => a.market_score)
      let mean := scores.sum / (scores.length : ℚ)
      let variance := (scores.map (fun s => (s - mean) ^ 2)).sum / (scores.length : ℚ)
      pyRound (max 0 (100 - 2 * sqrt variance)) 1
  let dataCompleteness := (market_analyses.length : ℚ) / 8 * 100
  pyRound (min 95 (0.4 * designClarity + 0.4 * marketConsistency + 0.2 * dataCompleteness)) 1

/-- A concrete design whose appeal and uniqueness scores sum above 100. -/
def dfSample : DesignFeatures :=
  { style_category := "modern", color_palette := ["blue"],
    design_complexity := "moderate", target_demographic := "millennials",
    theme_category := "abstract", visual_appeal_score := 80,
    uniqueness_score := 80, brand_potential := "medium" }

/-- The `MarketAnalysis` record `_analyze_single_market` builds for `"USA"`
from an AI judgment carrying `market_score = 80` and `demand_level = "high"`
(all other keys absent, hence field-defaulted). -/
def okMarketUSA80 : MarketAnalysis :=
  { location := "USA", market_score := 80, demand_level := "high",
    price_range := calculate_pricing "USA" 80, competition_level := "medium",
    seasonal_trends := ["year-round"], target_age_groups := ["18-35"],
    estimated_monthly_sales := pyInt 1000, market_trends := [],
    success_probability := 70, risk_factors := [], opportunities := [] }

/-- Counterexample to C3 as stated: with visual appeal 80, uniqueness 80
and one surviving market, the code computes 54.5 (it clamps the score sum
at 100 before halving: `min(100, 80+80)/2 = 50`), while the claimed
formula gives 66.5 (`(80+80)/2 = 80`). -/
theorem C3_counterexample :
    _calculate_confidence_score Rat.sqrt dfSample [okMarketUSA80] = 54.5 ∧
    confidenceClaimFormula Rat.sqrt dfSample [okMarketUSA80] = 66.5 ∧
    _calculate_confidence_score Rat.sqrt dfSample [okMarketUSA80] ≠
      confidenceClaimFormula Rat.sqrt dfSample [okMarketUSA80] := by
  have h1 : _calculate_confidence_score Rat.sqrt dfSample [okMarketUSA80] = 54.5 := by
    unfold _calculate_confidence_score _calculate_market_consistency dfSample
    norm_num
    rw [pyRound_eq_lo 1 545 (by norm_num) (by norm_num)]
    norm_num
  have h2 : confidenceClaimFormula Rat.sqrt dfSample [okMarketUSA80] = 66.5 := by
    unfold confidenceClaimFormula dfSample
    norm_num
    rw [pyRound_eq_lo 1 665 (by norm_num) (by norm_num)]
    norm_num
  refine ⟨h1, h2, ?_⟩
  rw [h1, h2]
  norm_num

/-- C3 amended: the confidence score equals the claimed shape with the
three corrections the code forces: design clarity clamps the sum at 100
before halving, market consistency is itself rounded to one decimal, and
data completeness is not saturated at full coverage. -/
theorem C3_amended_confidence_formula (sqrt : ℚ → ℚ) (design_features : DesignFeatures)
    (market_analyses : List MarketAnalysis) :
    _calculate_confidence_score sqrt design_features market_analyses =
      confidenceAmendedFormula sqrt design_features market_analyses := by
  simp only [_calculate_confidence_score, _calculate_market_consistency,
    confidenceAmendedFormula]
  split_ifs with h
  · congr 1
    ring
  · have hc : ∀ v : ℚ, sqrt v * 2 = 2 * sqrt v := fun v => mul_comm _ _
    congr 1
    rw [hc]
    congr 1
    ring

/-! ### Pipeline success shape (shared by the aggregation and ordering claims) -/

/-- Whenever the pipeline returns `ok`, the result's fields are exactly the
fan-in of the per-location sub-tasks of the valid requested locations, the
surviving set is non-empty, the aggregate scores are computed from it, and
the call trace is design, one market call per valid location, recommend. -/
theorem analyze_ok_shape (sqrt : ℚ → ℚ) (env : Env) (locations : List String)
    (res : AnalysisResult) (calls : List AICall)
    (h : analyze_tshirt_design sqrt env locations = (Except.ok res, calls)) :
    res.market_analysis =
      ((locations.filter (fun l => (MARKET_DATA l).isSome)).map
        (_analyze_single_market env.marketAI)).filterMap okOf? ∧
    res.market_analysis ≠ [] ∧
    res.overall_score = _calculate_overall_score res.market_analysis ∧
    res.confidence_score =
      _calculate_confidence_score sqrt res.design_features res.market_analysis ∧
    res.recommendations = generate_recommendations env.jsonDecode env.recsAI ∧
    calls = AICall.design ::
      ((locations.filter (fun l => (MARKET_DATA l).isSome)).map AICall.market ++
        [AICall.recommend]) := by
  unfold analyze_tshirt_design at h
  split at h
  · simp at h
  split at h
  · simp at h
  split at h
  · simp at h
  dsimp only at h
  split at h
  · simp at h
  · rename_i hne
    rw [Prod.mk.injEq] at h
    obtain ⟨h1, h2⟩ := h
    rw [Except.ok.injEq] at h1
    subst h1
    simp only [List.cons_append] at h2
    refine ⟨rfl, ?_, rfl, rfl, rfl, h2.symm⟩
    intro hnil
    apply hne
    rw [List.isEmpty_iff]
    exact hnil

theorem sum_weight_pos (market_analyses : List MarketAnalysis) (h : market_analyses ≠ []) :
    0 < (market_analyses.map (fun a => marketWeight a.location)).sum := by
  cases market_analyses with
  | nil => exact absurd rfl h
  | cons a t =>
    simp only [List.map_cons, List.sum_cons]
    have h1 := marketWeight_pos a.location
    have h2 : 0 ≤ (t.map (fun a => marketWeight a.location)).sum := by
      apply List.sum_nonneg
      intro x hx
      simp only [List.mem_map] at hx
      obtain ⟨b, _, rfl⟩ := hx
      exact le_of_lt (marketWeight_pos _)
    linarith

theorem weighted_sum_le (market_analyses : List MarketAnalysis) (hi : ℚ)
    (hhi : ∀ a ∈ market_analyses, a.market_score ≤ hi) :
    (market_analyses.map (fun a => a.market_score * marketWeight a.location)).sum ≤
      hi * (market_analyses.map (fun a => marketWeight a.location)).sum := by
  induction market_analyses with
  | nil => simp
  | cons a t ih =>
    simp only [List.map_cons, List.sum_cons, mul_add]
    have ha := hhi a (List.mem_cons_self a t)
    have hw := marketWeight_pos a.location
    have ht := ih (fun b hb => hhi b (List.mem_cons_of_mem a hb))
    have hstep : a.market_score * marketWeight a.location ≤ hi * marketWeight a.location :=
      mul_le_mul_of_nonneg_right ha (le_of_lt hw)
    linarith

theorem le_weighted_sum (market_analyses : List MarketAnalysis) (lo : ℚ)
    (hlo : ∀ a ∈ market_analyses, lo ≤ a.market_score) :
    lo * (market_analyses.map (fun a => marketWeight a.location)).sum ≤
      (market_analyses.map (fun a => a.market_score * marketWeight a.location)).sum := by
  induction market_analyses with
  | nil => simp
  | cons a t ih =>
    simp only [List.map_cons, List.sum_cons, mul_add]
    have ha := hlo a (List.mem_cons_self a t)
    have hw := marketWeight_pos a.location
    have ht := ih (fun b hb => hlo b (List.mem_cons_of_mem a hb))
    have hstep : lo * marketWeight a.location ≤ a.market_score * marketWeight a.location :=
      mul_le_mul_of_nonneg_right ha (le_of_lt hw)
    linarith

/-- On a non-empty surviving set, `_calculate_overall_score` is the rounded
weighted mean. -/
theorem overall_score_eq_weighted_mean (market_analyses : List MarketAnalysis)
    (h : market_analyses ≠ []) :
    _calculate_overall_score market_analyses =
      pyRound ((market_analyses.map (fun a => a.market_score * marketWeight a.location)).sum /
        (market_analyses.map (fun a => marketWeight a.location)).sum) 1 := by
  unfold _calculate_overall_score
  rw [if_neg (by rw [List.isEmpty_iff]; exact h)]
  rw [if_pos (sum_weight_pos market_analyses h)]

/-! ### Claim C4 -/

/-- C4 amended: on every successful run, `market_analysis` is exactly the
list of successful sub-task results of the valid requested locations (one
entry per success); the overall score is the rounding to 1 decimal of the
weighted mean of the surviving scores, with weight
`sizeWeight(market_size) * maturityWeight(market_maturity)` taking the
claimed values; and the *unrounded* weighted mean lies between any lower
and upper bound of the surviving scores inclusive (strictness fails when
all surviving scores coincide, e.g. with a single market). -/
theorem C4_overall_weighted_mean (sqrt : ℚ → ℚ) (env : Env) (locations : List String)
    (res : AnalysisResult) (calls : List AICall) (lo hi : ℚ)
    (h : analyze_tshirt_design sqrt env locations = (Except.ok res, calls))
    (hlo : ∀ a ∈ res.market_analysis, lo ≤ a.market_score)
    (hhi : ∀ a ∈ res.market_analysis, a.market_score ≤ hi) :
    res.market_analysis =
      ((locations.filter (fun l => (MARKET_DATA l).isSome)).map
        (_analyze_single_market env.marketAI)).filterMap okOf? ∧
    res.overall_score =
      pyRound ((res.market_analysis.map (fun a => a.market_score * marketWeight a.location)).sum /
        (res.market_analysis.map (fun a => marketWeight a.location)).sum) 1 ∧
    (sizeWeightOf "massive" = 1.5 ∧ sizeWeightOf "large" = 1.2 ∧
     sizeWeightOf "medium" = 1 ∧ sizeWeightOf "small" = 0.8 ∧
     maturityWeightOf "growing" = 1.3 ∧ maturityWeightOf "mature" = 1.1 ∧
     maturityWeightOf "emerging" = 1) ∧
    lo ≤ (res.market_analysis.map (fun a => a.market_score * marketWeight a.location)).sum /
        (res.market_analysis.map (fun a => marketWeight a.location)).sum ∧
    (res.market_analysis.map (fun a => a.market_score * marketWeight a.location)).sum /
        (res.market_analysis.map (fun a => marketWeight a.location)).sum ≤ hi := by
  obtain ⟨hm, hne, hov, _, _, _⟩ := analyze_ok_shape sqrt env locations res calls h
  have hW := sum_weight_pos res.market_analysis hne
  refine ⟨hm, ?_, ?_, ?_, ?_⟩
  · rw [hov]
    exact overall_score_eq_weighted_mean _ hne
  · refine ⟨?_, ?_, ?_, ?_, ?_, ?_, ?_⟩ <;>
      simp only [sizeWeightOf, maturityWeightOf, String.reduceEq, reduceIte] <;> norm_num
  · rw [le_div_iff₀ hW]
    exact le_weighted_sum _ lo hlo
  · rw [div_le_iff₀ hW]
    exact weighted_sum_le _ hi hhi

/-- The raw AI judgment used by the concrete pipeline runs below. -/
def rjUSA80 : RawJudgment := { market_score := some 80, demand_level := some "high" }

/-- A fully healthy concrete environment whose single valid location
(`"USA"`) scores 80. -/
def envC4 : Env :=
  { data_len := 1000,
    decoded := Except.ok { format := "jpeg", width := 300, height := 300 },
    designAI := Except.ok dfSample,
    marketAI := fun _ => Except.ok rjUSA80,
    recsAI := Except.error ⟨ErrKind.aiServiceError, "recommendations failed"⟩,
    jsonDecode := fun _ => none }

theorem marketWeight_USA : marketWeight "USA" = 1.32 := by
  unfold marketWeight MARKET_DATA
  simp only [String.reduceEq, reduceIte]
  simp only [usaEntry, sizeWeightOf, maturityWeightOf, String.reduceEq, reduceIte]
  norm_num

theorem overall_single_usa80 : _calculate_overall_score [okMarketUSA80] = 80 := by
  unfold _calculate_overall_score
  simp only [List.isEmpty_cons, List.map_cons, List.map_nil, List.sum_cons, List.sum_nil]
  rw [if_neg (by simp)]
  have hsc : okMarketUSA80.market_score = 80 := rfl
  have hloc : okMarketUSA80.location = "USA" := rfl
  rw [hsc, hloc, marketWeight_USA]
  rw [if_pos (by norm_num)]
  have harg : (80 * 1.32 + 0) / ((1.32 : ℚ) + 0) = 80 := by norm_num
  rw [harg]
  rw [pyRound_eq_lo 1 800 (by norm_num) (by norm_num)]
  norm_num

/-- Counterexample to C4 as stated: with a single surviving market
(`"USA"`, score 80) the overall score equals 80, which is *not strictly
between* the minimum and maximum (both 80) of the surviving scores. -/
theorem C4_counterexample :
    (analyze_tshirt_design Rat.sqrt envC4 ["USA"]).1.map
      (fun r => (r.overall_score, r.market_analysis.map (fun a => a.market_score))) =
      Except.ok ((80 : ℚ), [(80 : ℚ)]) ∧ ¬ ((80 : ℚ) < 80) := by
  constructor
  · have key : (analyze_tshirt_design Rat.sqrt envC4 ["USA"]).1.map
        (fun r => (r.overall_score, r.market_analysis.map (fun a => a.market_score))) =
        Except.ok (_calculate_overall_score [okMarketUSA80], [(80 : ℚ)]) := rfl
    rw [key, overall_single_usa80]
  · norm_num

/-- The concrete run of `envC4` and its successful result. -/
def runC4 : Except PyErr AnalysisResult × List AICall :=
  analyze_tshirt_design Rat.sqrt envC4 ["USA"]

def resC4 : AnalysisResult :=
  runC4.1.toOption.getD ⟨dfSample, [], 0, Json.null, 0⟩

/-- Witness for the amended C4 at the concrete run `envC4`/`["USA"]` with
bounds 80 ≤ score ≤ 80. -/
theorem C4_overall_weighted_mean_witness :
    resC4.market_analysis =
      (((["USA"] : List String).filter (fun l => (MARKET_DATA l).isSome)).map
        (_analyze_single_market envC4.marketAI)).filterMap okOf? ∧
    resC4.overall_score =
      pyRound ((resC4.market_analysis.map (fun a => a.market_score * marketWeight a.location)).sum /
        (resC4.market_analysis.map (fun a => marketWeight a.location)).sum) 1 ∧
    (sizeWeightOf "massive" = 1.5 ∧ sizeWeightOf "large" = 1.2 ∧
     sizeWeightOf "medium" = 1 ∧ sizeWeightOf "small" = 0.8 ∧
     maturityWeightOf "growing" = 1.3 ∧ maturityWeightOf "mature" = 1.1 ∧
     maturityWeightOf "emerging" = 1) ∧
    (80 : ℚ) ≤ (resC4.market_analysis.map (fun a => a.market_score * marketWeight a.location)).sum /
        (resC4.market_analysis.map (fun a => marketWeight a.location)).sum ∧
    (resC4.market_analysis.map (fun a => a.market_score * marketWeight a.location)).sum /
        (resC4.market_analysis.map (fun a => marketWeight a.location)).sum ≤ (80 : ℚ) :=
  C4_overall_weighted_mean Rat.sqrt envC4 ["USA"] resC4 runC4.2 80 80 rfl
    (by
      intro a ha
      have ha' : a ∈ [okMarketUSA80] := ha
      rw [List.mem_singleton] at ha'
      subst ha'
      norm_num [okMarketUSA80])
    (by
      intro a ha
      have ha' : a ∈ [okMarketUSA80] := ha
      rw [List.mem_singleton] at ha'
      subst ha'
      norm_num [okMarketUSA80])

/-! ### Claim C9 -/

theorem single_market_location (marketAI : String → Except PyErr RawJudgment)
    (l : String) (a : MarketAnalysis)
    (h : _analyze_single_market marketAI l = Except.ok a) : a.location = l := by
  unfold _analyze_single_market at h
  split at h
  · simp at h
  · split at h
    · simp at h
    · rw [Except.ok.injEq] at h
      subst h
      rfl

theorem okOf_error {α : Type} (e : PyErr) :
    okOf? (Except.error e : Except PyErr α) = none := rfl

theorem okOf_ok {α : Type} (a : α) :
    okOf? (Except.ok a : Except PyErr α) = some a := rfl

theorem filterMap_okOf_map_location (marketAI : String → Except PyErr RawJudgment)
    (ls : List String) :
    (((ls.map (_analyze_single_market marketAI)).filterMap okOf?).map (fun a => a.location)) =
      ls.filter (fun l => (okOf? (_analyze_single_market marketAI l)).isSome) := by
  induction ls with
  | nil => rfl
  | cons l t ih =>
    rw [List.map_cons, List.filterMap_cons, List.filter_cons]
    cases hres : _analyze_single_market marketAI l with
    | error e =>
      rw [okOf_error]
      exact ih
    | ok a =>
      rw [okOf_ok]
      show (a :: (t.map (_analyze_single_market marketAI)).filterMap okOf?).map
          (fun a => a.location) =
        l :: t.filter (fun l => (okOf? (_analyze_single_market marketAI l)).isSome)
      rw [List.map_cons, single_market_location marketAI l a hres, ih]

/-- C9: on every successful run, the surviving `market_analysis` entries
appear in dispatch order: their location fields are exactly the requested
valid locations whose sub-task succeeded, in request order. -/
theorem C9_market_analysis_in_dispatch_order (sqrt : ℚ → ℚ) (env : Env)
    (locations : List String) (res : AnalysisResult) (calls : List AICall)
    (h : analyze_tshirt_design sqrt env locations = (Except.ok res, calls)) :
    res.market_analysis.map (fun a => a.location) =
      (locations.filter (fun l => (MARKET_DATA l).isSome)).filter
        (fun l => (okOf? (_analyze_single_market env.marketAI l)).isSome) := by
  obtain ⟨hm, _, _, _, _, _⟩ := analyze_ok_shape sqrt env locations res calls h
  rw [hm]
  exact filterMap_okOf_map_location env.marketAI _

/-- Witness for C9 at the concrete run `envC4` with requests
`["USA", "Atlantis"]` (the second is not a reference location). -/
theorem C9_market_analysis_in_dispatch_order_witness :
    ((analyze_tshirt_design Rat.sqrt envC4 ["USA", "Atlantis"]).1.toOption.getD
        ⟨dfSample, [], 0, Json.null, 0⟩).market_analysis.map (fun a => a.location) =
      ((["USA", "Atlantis"] : List String).filter (fun l => (MARKET_DATA l).isSome)).filter
        (fun l => (okOf? (_analyze_single_market envC4.marketAI l)).isSome) :=
  C9_market_analysis_in_dispatch_order Rat.sqrt envC4 ["USA", "Atlantis"]
    ((analyze_tshirt_design Rat.sqrt envC4 ["USA", "Atlantis"]).1.toOption.getD
      ⟨dfSample, [], 0, Json.null, 0⟩)
    (analyze_tshirt_design Rat.sqrt envC4 ["USA", "Atlantis"]).2 rfl

/-! ### Claim C1 -/

theorem validate_error_kind (mfs dl : ℕ) (dec : Except String ImgMeta) (e : PyErr)
    (h : validate_image mfs dl dec = Except.error e) :
    e.kind = ErrKind.imageProcessingError := by
  unfold validate_image at h
  split at h
  · rw [Except.error.injEq] at h
    subst h
    rfl
  · split at h
    · rw [Except.error.injEq] at h
      subst h
      rfl
    · split at h
      · rw [Except.error.injEq] at h
        subst h
        rfl
      · split at h
        · rw [Except.error.injEq] at h
          subst h
          rfl
        · simp at h

/-- C1 amended: when preconditioning rejects the upload (oversized payload,
undecodable bytes, unsupported format, or `max(width, height) < 100`), the
pipeline makes no AI-gateway call and fails -- but the surfaced error is the
boundary's `AnalysisServiceError` wrapping the `ImageProcessingError`
message, not an `ImageProcessingError` itself. -/
theorem C1_precondition_failure_aborts (sqrt : ℚ → ℚ) (env : Env) (locations : List String)
    (hfail : env.max_file_size < env.data_len ∨
      (∃ m, env.decoded = Except.error m) ∨
      (∃ img, env.decoded = Except.ok img ∧
        (["jpeg", "jpg", "png", "webp"].contains (pyLower img.format)) = false) ∨
      (∃ img, env.decoded = Except.ok img ∧ Nat.max img.width img.height < 100)) :
    ∃ e : PyErr, e.kind = ErrKind.imageProcessingError ∧
      validate_image env.max_file_size env.data_len env.decoded = Except.error e ∧
      analyze_tshirt_design sqrt env locations =
        (Except.error ⟨ErrKind.analysisServiceError,
          "Analysis pipeline failed: " ++ e.msg⟩, []) := by
  have hval : ∃ e, validate_image env.max_file_size env.data_len env.decoded =
      Except.error e := by
    unfold validate_image
    rcases hfail with h1 | ⟨m, hm⟩ | ⟨img, himg, hfmt⟩ | ⟨img, himg, hsm⟩
    · rw [if_pos h1]
      exact ⟨_, rfl⟩
    · split_ifs
      · exact ⟨_, rfl⟩
      · rw [hm]
        exact ⟨_, rfl⟩
    · split_ifs with h1
      · exact ⟨_, rfl⟩
      · simp only [himg]
        rw [if_pos hfmt]
        exact ⟨_, rfl⟩
    · split_ifs with h1
      · exact ⟨_, rfl⟩
      · simp only [himg]
        by_cases h2 : (["jpeg", "jpg", "png", "webp"].contains (pyLower img.format)) = false
        · rw [if_pos h2]
          exact ⟨_, rfl⟩
        · rw [if_neg h2, if_pos hsm]
          exact ⟨_, rfl⟩
  obtain ⟨e, he⟩ := hval
  refine ⟨e, validate_error_kind _ _ _ _ he, he, ?_⟩
  unfold analyze_tshirt_design
  rw [he]
  rfl

/-- A concrete upload that decodes to a 50x50 jpeg: too small. -/
def envC1 : Env :=
  { data_len := 1000,
    decoded := Except.ok { format := "jpeg", width := 50, height := 50 },
    designAI := Except.ok dfSample,
    marketAI := fun _ => Except.ok rjUSA80,
    recsAI := Except.error ⟨ErrKind.aiServiceError, "recommendations failed"⟩,
    jsonDecode := fun _ => none }

/-- Counterexample to C1 as stated: on a 50x50 image the pipeline aborts
before any AI call, but the error it fails with has kind
`AnalysisServiceError` (the boundary re-wrap), not `ImageProcessingError`. -/
theorem C1_counterexample :
    analyze_tshirt_design Rat.sqrt envC1 ["USA"] =
      (Except.error ⟨ErrKind.analysisServiceError,
        "Analysis pipeline failed: Image too small (minimum 100px)"⟩, []) ∧
    ErrKind.analysisServiceError ≠ ErrKind.imageProcessingError :=
  ⟨rfl, by decide⟩

/-- Witness for the amended C1 at the concrete environment `envC1`. -/
theorem C1_precondition_failure_aborts_witness :
    ∃ e : PyErr, e.kind = ErrKind.imageProcessingError ∧
      validate_image envC1.max_file_size envC1.data_len envC1.decoded = Except.error e ∧
      analyze_tshirt_design Rat.sqrt envC1 ["USA"] =
        (Except.error ⟨ErrKind.analysisServiceError,
          "Analysis pipeline failed: " ++ e.msg⟩, []) :=
  C1_precondition_failure_aborts Rat.sqrt envC1 ["USA"]
    (Or.inr (Or.inr (Or.inr ⟨{ format := "jpeg", width := 50, height := 50 }, rfl, by norm_num⟩)))

/-! ### Claim C2 -/

theorem validate_ok_process_ok (mfs dl mid : ℕ) (dec : Except String ImgMeta)
    (h : validate_image mfs dl dec = Except.ok true) :
    ∃ sz, process_image mid dec = Except.ok sz := by
  unfold validate_image at h
  split at h
  · simp at h
  · split at h
    · simp at h
    · unfold process_image
      dsimp only
      split_ifs
      · exact ⟨_, rfl⟩
      · exact ⟨_, rfl⟩

theorem single_market_none_of_ai_error (marketAI : String → Except PyErr RawJudgment)
    (l : String) (h : ∃ e, marketAI l = Except.error e) :
    okOf? (_analyze_single_market marketAI l) = none := by
  obtain ⟨e, he⟩ := h
  unfold _analyze_single_market
  cases MARKET_DATA l with
  | none => rfl
  | some ctx =>
    rw [he]
    rfl

theorem filterMap_okOf_nil {α : Type} (f : String → Except PyErr α) (ls : List String)
    (h : ∀ l ∈ ls, okOf? (f l) = none) : (ls.map f).filterMap okOf? = [] := by
  induction ls with
  | nil => rfl
  | cons l t ih =>
    simp only [List.map_cons, List.filterMap_cons]
    rw [h l (List.mem_cons_self l t)]
    exact ih fun b hb => h b (List.mem_cons_of_mem l hb)

/-- C2 amended: when feature extraction succeeds but every dispatched
market sub-task fails (vacuously also when no requested location is valid),
every sub-task is still dispatched (the trace shows one market call per
valid location: failures do not cancel siblings) and the whole analysis
fails with an `AnalysisServiceError`; its surfaced message is the
boundary-wrapped `"Analysis pipeline failed: No successful market
analyses"` (the inner raise carries `"No successful market analyses"`). -/
theorem C2_all_subtasks_fail (sqrt : ℚ → ℚ) (env : Env) (locations : List String)
    (df : DesignFeatures)
    (hv : validate_image env.max_file_size env.data_len env.decoded = Except.ok true)
    (hd : env.designAI = Except.ok df)
    (hfail : ∀ l ∈ locations.filter (fun l => (MARKET_DATA l).isSome),
      ∃ e, env.marketAI l = Except.error e) :
    analyze_tshirt_design sqrt env locations =
      (Except.error ⟨ErrKind.analysisServiceError,
        "Analysis pipeline failed: No successful market analyses"⟩,
       AICall.design ::
         (locations.filter (fun l => (MARKET_DATA l).isSome)).map AICall.market) := by
  obtain ⟨sz, hp⟩ := validate_ok_process_ok env.max_file_size env.data_len
    env.max_image_dimension env.decoded hv
  have hemp : (((locations.filter (fun l => (MARKET_DATA l).isSome)).map
      (_analyze_single_market env.marketAI)).filterMap okOf?) = [] :=
    filterMap_okOf_nil _ _ fun l hl => single_market_none_of_ai_error _ l (hfail l hl)
  unfold analyze_tshirt_design
  rw [hv, hp, hd]
  dsimp only
  rw [hemp]
  rfl

/-- A healthy image and design extraction, but every market AI call fails. -/
def envC2 : Env :=
  { data_len := 1000,
    decoded := Except.ok { format := "jpeg", width := 300, height := 300 },
    designAI := Except.ok dfSample,
    marketAI := fun l => Except.error
      ⟨ErrKind.aiServiceError, "Market analysis failed for " ++ l ++ ": boom"⟩,
    recsAI := Except.error ⟨ErrKind.aiServiceError, "recommendations failed"⟩,
    jsonDecode := fun _ => none }

/-- Counterexample to C2 as stated: when every sub-task fails, the error
the analysis surfaces is an `AnalysisServiceError` whose message is the
wrapped `"Analysis pipeline failed: No successful market analyses"`, not
the claimed bare `"No successful market analyses"` (the trace still shows
the design call and both market calls: siblings ran). -/
theorem C2_counterexample :
    analyze_tshirt_design Rat.sqrt envC2 ["USA", "India"] =
      (Except.error ⟨ErrKind.analysisServiceError,
        "Analysis pipeline failed: No successful market analyses"⟩,
       [AICall.design, AICall.market "USA", AICall.market "India"]) ∧
    ("Analysis pipeline failed: No successful market analyses" : String) ≠
      "No successful market analyses" :=
  ⟨rfl, by decide⟩

/-- Witness for the amended C2 at `envC2` with one valid and one unknown
requested location. -/
theorem C2_all_subtasks_fail_witness :
    analyze_tshirt_design Rat.sqrt envC2 ["USA", "Atlantis"] =
      (Except.error ⟨ErrKind.analysisServiceError,
        "Analysis pipeline failed: No successful market analyses"⟩,
       AICall.design ::
         ((["USA", "Atlantis"] : List String).filter
            (fun l => (MARKET_DATA l).isSome)).map AICall.market) :=
  C2_all_subtasks_fail Rat.sqrt envC2 ["USA", "Atlantis"] dfSample rfl rfl
    (fun l _ => ⟨_, rfl⟩)

/-! ### Claim C10 -/

/-- C10: `generate_recommendations` is total by construction (it returns a
value for every oracle outcome, never propagating an exception); when the
AI call fails or the parse fails it returns the fixed three-string default
list, but when the parse succeeds with a JSON object lacking the
`"recommendations"` key it returns the *empty* list, so the surrounding
result's recommendations can be empty.  (`J1`/`t1` drive the failing-parse
run, `J2`/`t2` the successful one.) -/
theorem C10_recommendations_fallbacks (J1 J2 : List Char → Option Json)
    (aiErr : PyErr) (t1 t2 : List Char) (fields : List (String × Json))
    (hparse : ∃ e, _parse_json_response J1 t1 = Except.error e)
    (hok : _parse_json_response J2 t2 = Except.ok (Json.obj fields))
    (hnokey : fields.lookup "recommendations" = none) :
    generate_recommendations J1 (Except.error aiErr) = default_recommendations ∧
    generate_recommendations J1 (Except.ok t1) = default_recommendations ∧
    generate_recommendations J2 (Except.ok t2) = Json.arr [] := by
  refine ⟨rfl, ?_, ?_⟩
  · obtain ⟨e, he⟩ := hparse
    unfold generate_recommendations
    dsimp only
    rw [he]
  · unfold generate_recommendations
    dsimp only
    rw [hok]
    unfold pyDictGet
    dsimp only
    rw [hnokey]
    rfl

/-- Witness for C10: a decoder that always fails on the one side, and one
returning an object without a `"recommendations"` key on the other. -/
theorem C10_recommendations_fallbacks_witness :
    generate_recommendations (fun _ => none)
        (Except.error ⟨ErrKind.aiServiceError, "transport down"⟩) =
      default_recommendations ∧
    generate_recommendations (fun _ => none) (Except.ok ['x']) =
      default_recommendations ∧
    generate_recommendations (fun _ => some (Json.obj [("status", Json.str "ok")]))
        (Except.ok ['x']) = Json.arr [] :=
  C10_recommendations_fallbacks (fun _ => none)
    (fun _ => some (Json.obj [("status", Json.str "ok")]))
    ⟨ErrKind.aiServiceError, "transport down"⟩ ['x'] ['x']
    [("status", Json.str "ok")] ⟨_, rfl⟩ rfl rfl

/-! ### Claim C8

The round-trip property of `_parse_json_response`: a JSON object text `j`
(already stripped, containing no 3-backtick run) parses identically whether
sent raw, wrapped in an untagged fence, or wrapped in a json-tagged fence.
The development below characterises Python `str.find`/slicing on the three
shapes. -/

/-- The text the AI returns when it wraps `j` in a json-tagged fence. -/
def jsonFenced (j : List Char) : List Char := jsonFenceTag ++ '\n' :: (j ++ '\n' :: fence3)

/-- The text the AI returns when it wraps `j` in an untagged fence. -/
def plainFenced (j : List Char) : List Char := fence3 ++ '\n' :: (j ++ '\n' :: fence3)

theorem findSub_cons (pat : List Char) (c : Char) (t : List Char) :
    findSub pat (c :: t) =
      if pat.isPrefixOf (c :: t) then some 0 else (findSub pat t).map (· + 1) := rfl

theorem containsSub_cons (pat : List Char) (c : Char) (t : List Char) :
    containsSub pat (c :: t) = (pat.isPrefixOf (c :: t) || containsSub pat t) := by
  unfold containsSub
  rw [findSub_cons]
  cases hp : pat.isPrefixOf (c :: t) with
  | true => simp [hp]
  | false =>
    cases h2 : findSub pat t <;> simp [hp, h2]

theorem findSub_at_head (pat s : List Char) (h : pat.isPrefixOf s = true) :
    findSub pat s = some 0 := by
  cases s with
  | nil => unfold findSub; rw [if_pos h]
  | cons c t => rw [findSub_cons, if_pos h]

theorem containsSub_at_head (pat s : List Char) (h : pat.isPrefixOf s = true) :
    containsSub pat s = true := by
  unfold containsSub
  rw [findSub_at_head pat s h]
  rfl

theorem containsSub_false_mono (p q s : List Char) (hpq : p <+: q)
    (h : containsSub p s = false) : containsSub q s = false := by
  induction s with
  | nil =>
    cases hq : q.isPrefixOf ([] : List Char) with
    | false => unfold containsSub findSub; rw [hq]; rfl
    | true =>
      exfalso
      have hq' : q = [] := List.prefix_nil.mp (List.isPrefixOf_iff_prefix.mp hq)
      have hp' : p = [] := List.prefix_nil.mp (hq' ▸ hpq)
      rw [hp'] at h
      simp [containsSub, findSub] at h
  | cons c t ih =>
    rw [containsSub_cons] at h
    rw [Bool.or_eq_false_iff] at h
    obtain ⟨h1, h2⟩ := h
    rw [containsSub_cons, Bool.or_eq_false_iff]
    refine ⟨?_, ih h2⟩
    cases hq : q.isPrefixOf (c :: t) with
    | false => rfl
    | true =>
      exfalso
      have : p.isPrefixOf (c :: t) = true :=
        List.isPrefixOf_iff_prefix.mpr (hpq.trans (List.isPrefixOf_iff_prefix.mp hq))
      rw [this] at h1
      simp at h1



theorem fence3_not_prefix_append (u v : List Char) (h : containsSub fence3 u = false) :
    fence3.isPrefixOf (u ++ '\n' :: v) = false := by
  cases u with
  | nil => rfl
  | cons a u1 =>
    cases u1 with
    | nil =>
      have h2 : ([bt, bt] : List Char).isPrefixOf ('\n' :: v) = false := rfl
      show ((bt == a) && ([bt, bt] : List Char).isPrefixOf ('\n' :: v)) = false
      rw [h2, Bool.and_false]
    | cons b u2 =>
      cases u2 with
      | nil =>
        have h2 : ([bt] : List Char).isPrefixOf ('\n' :: v) = false := rfl
        show ((bt == a) && ((bt == b) && ([bt] : List Char).isPrefixOf ('\n' :: v))) = false
        rw [h2, Bool.and_false, Bool.and_false]
      | cons d u3 =>
        have key : ∀ X : List Char, fence3.isPrefixOf (a :: b :: d :: X) =
            ((bt == a) && ((bt == b) && (bt == d))) := by
          intro X
          show ((bt == a) && ((bt == b) && ((bt == d) &&
            List.isPrefixOf ([] : List Char) X))) = _
          rw [List.isPrefixOf_nil_left, Bool.and_true]
        cases hx : fence3.isPrefixOf (a :: b :: d :: (u3 ++ '\n' :: v)) with
        | false => exact hx
        | true =>
          exfalso
          have hpre : fence3.isPrefixOf (a :: b :: d :: u3) = true := by
            rw [key]
            rw [key] at hx
            exact hx
          rw [containsSub_cons, hpre] at h
          simp at h

theorem findSub_fence_append (u : List Char) (h : containsSub fence3 u = false) :
    findSub fence3 (u ++ '\n' :: fence3) = some (u.length + 1) := by
  induction u with
  | nil => rfl
  | cons c t ih =>
    rw [containsSub_cons, Bool.or_eq_false_iff] at h
    obtain ⟨h1, h2⟩ := h
    have hnp : fence3.isPrefixOf (c :: (t ++ '\n' :: fence3)) = false := by
      have := fence3_not_prefix_append (c :: t) fence3
        (by rw [containsSub_cons, Bool.or_eq_false_iff]; exact ⟨h1, h2⟩)
      rw [List.cons_append] at this
      exact this
    rw [List.cons_append, findSub_cons, if_neg (by rw [hnp]; simp), ih h2]
    rfl

theorem jsonTag_not_in_body (u : List Char) (h : containsSub fence3 u = false) :
    containsSub jsonFenceTag (u ++ '\n' :: fence3) = false := by
  induction u with
  | nil => rfl
  | cons c t ih =>
    rw [containsSub_cons, Bool.or_eq_false_iff] at h
    obtain ⟨h1, h2⟩ := h
    rw [List.cons_append, containsSub_cons, ih h2, Bool.or_false]
    cases hx : jsonFenceTag.isPrefixOf (c :: (t ++ '\n' :: fence3)) with
    | false => rfl
    | true =>
      exfalso
      have hq : fence3 <+: jsonFenceTag := ⟨['j', 's', 'o', 'n'], rfl⟩
      have hpre : fence3.isPrefixOf (c :: (t ++ '\n' :: fence3)) = true :=
        List.isPrefixOf_iff_prefix.mpr
          (List.IsPrefix.trans hq (List.isPrefixOf_iff_prefix.mp hx))
      have hnp := fence3_not_prefix_append (c :: t) fence3
        (by rw [containsSub_cons, Bool.or_eq_false_iff]; exact ⟨h1, h2⟩)
      rw [List.cons_append] at hnp
      rw [hnp] at hpre
      simp at hpre

theorem jsonTag_not_in_plainFenced (j : List Char) (h : containsSub fence3 j = false) :
    containsSub jsonFenceTag (plainFenced j) = false := by
  have e1 : plainFenced j = bt :: bt :: bt :: '\n' :: (j ++ '\n' :: fence3) := rfl
  have hbody : containsSub jsonFenceTag (('\n' :: j) ++ '\n' :: fence3) = false :=
    jsonTag_not_in_body ('\n' :: j)
      (by rw [containsSub_cons, show fence3.isPrefixOf ('\n' :: j) = false from rfl, h]; rfl)
  rw [List.cons_append] at hbody
  rw [e1, containsSub_cons, containsSub_cons, containsSub_cons, hbody, Bool.or_false]
  rfl


theorem pyLStrip_cons_of_not_space (c : Char) (X : List Char) (h : pyIsSpace c = false) :
    pyLStrip (c :: X) = c :: X := by
  unfold pyLStrip
  rw [List.dropWhile_cons, h]
  simp

theorem pyRStrip_append_nl_fence3 (X : List Char) :
    pyRStrip (X ++ '\n' :: fence3) = X ++ '\n' :: fence3 := by
  unfold pyRStrip
  rw [List.reverse_append]
  rw [show (('\n' :: fence3).reverse : List Char) = bt :: bt :: bt :: '\n' :: [] from rfl]
  rw [show ((bt :: bt :: bt :: '\n' :: [] : List Char) ++ X.reverse) =
    bt :: bt :: bt :: '\n' :: X.reverse from rfl]
  rw [List.dropWhile_cons, show pyIsSpace bt = false from rfl]
  simp only [Bool.false_eq_true, if_false]
  rw [show (bt :: bt :: bt :: '\n' :: X.reverse : List Char) =
    ((bt :: bt :: bt :: '\n' :: [] : List Char) ++ X.reverse) from rfl]
  rw [List.reverse_append, List.reverse_reverse]
  rfl

theorem pyStrip_jsonFenced (j : List Char) : pyStrip (jsonFenced j) = jsonFenced j := by
  unfold pyStrip
  rw [show jsonFenced j =
    bt :: (bt :: bt :: 'j' :: 's' :: 'o' :: 'n' :: '\n' :: (j ++ '\n' :: fence3)) from rfl]
  rw [pyLStrip_cons_of_not_space _ _ (by decide)]
  rw [show (bt :: (bt :: bt :: 'j' :: 's' :: 'o' :: 'n' :: '\n' :: (j ++ '\n' :: fence3)) :
    List Char) = ((bt :: bt :: bt :: 'j' :: 's' :: 'o' :: 'n' :: '\n' :: [] : List Char) ++ j) ++
      '\n' :: fence3 from by simp]
  exact pyRStrip_append_nl_fence3 _

theorem pyStrip_plainFenced (j : List Char) : pyStrip (plainFenced j) = plainFenced j := by
  unfold pyStrip
  rw [show plainFenced j = bt :: (bt :: bt :: '\n' :: (j ++ '\n' :: fence3)) from rfl]
  rw [pyLStrip_cons_of_not_space _ _ (by decide)]
  rw [show (bt :: (bt :: bt :: '\n' :: (j ++ '\n' :: fence3)) : List Char) =
    ((bt :: bt :: bt :: '\n' :: [] : List Char) ++ j) ++ '\n' :: fence3 from by simp]
  exact pyRStrip_append_nl_fence3 _


theorem pyLStrip_cons_space (c : Char) (X : List Char) (h : pyIsSpace c = true) :
    pyLStrip (c :: X) = pyLStrip X := by
  unfold pyLStrip
  rw [List.dropWhile_cons, h]
  simp

theorem pyStrip_parts (s : List Char) (h : pyStrip s = s) :
    pyLStrip s = s ∧ pyRStrip s = s := by
  have hlen1 : (pyLStrip s).length ≤ s.length := (List.dropWhile_suffix _).length_le
  have hlen2 : ∀ t : List Char, (pyRStrip t).length ≤ t.length := by
    intro t
    unfold pyRStrip
    rw [List.length_reverse]
    calc (t.reverse.dropWhile pyIsSpace).length ≤ t.reverse.length :=
          (List.dropWhile_suffix _).length_le
    _ = t.length := List.length_reverse t
  have heq : (pyStrip s).length = s.length := by rw [h]
  have hL : (pyLStrip s).length = s.length := by
    have h2 := hlen2 (pyLStrip s)
    unfold pyStrip at heq
    omega
  have h1 : pyLStrip s = s :=
    List.IsSuffix.eq_of_length (List.dropWhile_suffix _) hL
  refine ⟨h1, ?_⟩
  have h2 : pyStrip s = pyRStrip s := by
    unfold pyStrip
    rw [h1]
  rw [← h2, h]

theorem head_not_space (c : Char) (t : List Char) (h : pyLStrip (c :: t) = c :: t) :
    pyIsSpace c = false := by
  unfold pyLStrip at h
  rw [List.dropWhile_cons] at h
  by_cases hc : pyIsSpace c = true
  · rw [if_pos hc] at h
    have hlen := (List.dropWhile_suffix (l := t) pyIsSpace).length_le
    rw [h] at hlen
    simp at hlen
  · cases hcc : pyIsSpace c with
    | false => rfl
    | true => exact absurd hcc hc

theorem pyStrip_nl_wrap (j : List Char) (h : pyStrip j = j) :
    pyStrip ('\n' :: (j ++ ['\n'])) = j := by
  obtain ⟨hl, hr⟩ := pyStrip_parts j h
  cases j with
  | nil => rfl
  | cons c t =>
    have hc : pyIsSpace c = false := head_not_space c t hl
    unfold pyStrip
    rw [pyLStrip_cons_space '\n' _ (by decide)]
    rw [show ((c :: t) ++ ['\n'] : List Char) = c :: (t ++ ['\n']) from rfl]
    rw [pyLStrip_cons_of_not_space c _ hc]
    unfold pyRStrip
    rw [show ((c :: (t ++ ['\n'])) : List Char).reverse = '\n' :: (c :: t).reverse from by simp]
    rw [List.dropWhile_cons, show pyIsSpace '\n' = true from by decide]
    simp only [if_true]
    have hdw : List.dropWhile pyIsSpace (c :: t).reverse = (c :: t).reverse := by
      have h3 := hr
      unfold pyRStrip at h3
      have h4 := congrArg List.reverse h3
      rwa [List.reverse_reverse] at h4
    rw [hdw, List.reverse_reverse]


theorem pySlice_middle (A B C : List Char) :
    pySlice (A ++ (B ++ C)) ((A.length : ℕ) : ℤ) ((A.length + B.length : ℕ) : ℤ) = B := by
  unfold pySlice
  dsimp only
  rw [if_neg (by rw [Int.not_lt]; positivity), if_neg (by rw [Int.not_lt]; positivity)]
  have h1 : ((A.length : ℕ) : ℤ) ≤ ((A ++ (B ++ C)).length : ℤ) := by
    push_cast [List.length_append]
    omega
  have h2 : (((A.length + B.length : ℕ)) : ℤ) ≤ ((A ++ (B ++ C)).length : ℤ) := by
    push_cast [List.length_append]
    omega
  rw [min_eq_left h1, min_eq_left h2, Int.toNat_natCast, Int.toNat_natCast]
  rw [← List.append_assoc]
  rw [show A.length + B.length = (A ++ B).length from (List.length_append A B).symm]
  rw [List.take_left]
  rw [List.drop_left]

theorem find_jsonTag_in_jsonFenced (j : List Char) :
    pyFindFrom jsonFenceTag (jsonFenced j) 0 = 0 := by
  unfold pyFindFrom
  rw [List.drop_zero, findSub_at_head jsonFenceTag (jsonFenced j) rfl]
  rfl

theorem find_fence_in_jsonFenced (j : List Char) (hnf : containsSub fence3 j = false) :
    pyFindFrom fence3 (jsonFenced j) 7 = ((j.length + 9 : ℕ) : ℤ) := by
  unfold pyFindFrom
  rw [show (jsonFenced j).drop 7 = ('\n' :: j) ++ '\n' :: fence3 from rfl]
  rw [findSub_fence_append ('\n' :: j)
    (by rw [containsSub_cons, show fence3.isPrefixOf ('\n' :: j) = false from rfl, hnf]; rfl)]
  show (((7 : ℕ) + (('\n' :: j).length + 1) : ℕ) : ℤ) = ((j.length + 9 : ℕ) : ℤ)
  norm_num [List.length_cons]
  omega

theorem find_fence_in_plainFenced_0 (j : List Char) :
    pyFindFrom fence3 (plainFenced j) 0 = 0 := by
  unfold pyFindFrom
  rw [List.drop_zero, findSub_at_head fence3 (plainFenced j) rfl]
  rfl

theorem find_fence_in_plainFenced_3 (j : List Char) (hnf : containsSub fence3 j = false) :
    pyFindFrom fence3 (plainFenced j) 3 = ((j.length + 5 : ℕ) : ℤ) := by
  unfold pyFindFrom
  rw [show (plainFenced j).drop 3 = ('\n' :: j) ++ '\n' :: fence3 from rfl]
  rw [findSub_fence_append ('\n' :: j)
    (by rw [containsSub_cons, show fence3.isPrefixOf ('\n' :: j) = false from rfl, hnf]; rfl)]
  show (((3 : ℕ) + (('\n' :: j).length + 1) : ℕ) : ℤ) = ((j.length + 5 : ℕ) : ℤ)
  norm_num [List.length_cons]
  omega

theorem slice_jsonFenced (j : List Char) :
    pySlice (jsonFenced j) ((7 : ℕ) : ℤ) ((j.length + 9 : ℕ) : ℤ) = '\n' :: (j ++ ['\n']) := by
  have hA : jsonFenced j = jsonFenceTag ++ (('\n' :: (j ++ ['\n'])) ++ fence3) := by
    simp [jsonFenced]
  rw [hA]
  rw [show ((7 : ℕ) : ℤ) = ((jsonFenceTag.length : ℕ) : ℤ) from rfl]
  rw [show ((j.length + 9 : ℕ) : ℤ) =
    ((jsonFenceTag.length + ('\n' :: (j ++ ['\n'])).length : ℕ) : ℤ) from by
      norm_num [jsonFenceTag, fence3, List.length_cons, List.length_append]
      omega]
  exact pySlice_middle _ _ _

theorem slice_plainFenced (j : List Char) :
    pySlice (plainFenced j) ((3 : ℕ) : ℤ) ((j.length + 5 : ℕ) : ℤ) = '\n' :: (j ++ ['\n']) := by
  have hA : plainFenced j = fence3 ++ (('\n' :: (j ++ ['\n'])) ++ fence3) := by
    simp [plainFenced]
  rw [hA]
  rw [show ((3 : ℕ) : ℤ) = ((fence3.length : ℕ) : ℤ) from rfl]
  rw [show ((j.length + 5 : ℕ) : ℤ) =
    ((fence3.length + ('\n' :: (j ++ ['\n'])).length : ℕ) : ℤ) from by
      norm_num [fence3, List.length_cons, List.length_append]
      omega]
  exact pySlice_middle _ _ _


theorem parse_no_fence (J : List Char → Option Json) (j : List Char)
    (hs : pyStrip j = j) (hnf : containsSub fence3 j = false) :
    _parse_json_response J j =
      match J j with
      | some x => Except.ok x
      | none => Except.error ⟨ErrKind.aiServiceError, "Invalid JSON response from AI service"⟩ := by
  have hjf : containsSub jsonFenceTag j = false :=
    containsSub_false_mono fence3 jsonFenceTag j ⟨['j', 's', 'o', 'n'], rfl⟩ hnf
  unfold _parse_json_response
  rw [hs]
  dsimp only
  rw [hjf, hnf]
  rfl

theorem parse_jsonFenced (J : List Char → Option Json) (j : List Char)
    (hs : pyStrip j = j) (hnf : containsSub fence3 j = false) :
    _parse_json_response J (jsonFenced j) = _parse_json_response J j := by
  rw [parse_no_fence J j hs hnf]
  unfold _parse_json_response
  rw [pyStrip_jsonFenced]
  dsimp only
  rw [containsSub_at_head jsonFenceTag (jsonFenced j) rfl]
  rw [find_jsonTag_in_jsonFenced j]
  rw [show ((0 : ℤ) + 7).toNat = 7 from rfl]
  rw [find_fence_in_jsonFenced j hnf]
  rw [slice_jsonFenced j]
  rw [pyStrip_nl_wrap j hs]
  rfl

theorem parse_plainFenced (J : List Char → Option Json) (j : List Char)
    (hs : pyStrip j = j) (hnf : containsSub fence3 j = false) :
    _parse_json_response J (plainFenced j) = _parse_json_response J j := by
  rw [parse_no_fence J j hs hnf]
  unfold _parse_json_response
  rw [pyStrip_plainFenced]
  dsimp only
  rw [jsonTag_not_in_plainFenced j hnf]
  rw [containsSub_at_head fence3 (plainFenced j) rfl]
  rw [find_fence_in_plainFenced_0 j]
  rw [show ((0 : ℤ) + 3).toNat = 3 from rfl]
  rw [find_fence_in_plainFenced_3 j hnf]
  rw [slice_plainFenced j]
  rw [pyStrip_nl_wrap j hs]
  rfl

/-- C8: for every decoder outcome `J` and JSON object text `j` that is
whitespace-stripped and contains no 3-backtick run, parsing the raw text,
the json-tagged fenced text and the untagged fenced text all yield the
identical structured output. -/
theorem C8_fence_roundtrip (J : List Char → Option Json) (j : List Char)
    (hs : pyStrip j = j) (hnf : containsSub fence3 j = false) :
    _parse_json_response J (jsonFenced j) = _parse_json_response J j ∧
    _parse_json_response J (plainFenced j) = _parse_json_response J j :=
  ⟨parse_jsonFenced J j hs hnf, parse_plainFenced J j hs hnf⟩

/-- Witness for C8 at the two-character object text `"\x7b\x7d"` (an empty
JSON object) and a decoder that accepts it. -/
theorem C8_fence_roundtrip_witness :
    pyStrip [Char.ofNat 123, Char.ofNat 125] = [Char.ofNat 123, Char.ofNat 125] ∧
    containsSub fence3 [Char.ofNat 123, Char.ofNat 125] = false ∧
    (_parse_json_response (fun _ => some (Json.obj []))
        (jsonFenced [Char.ofNat 123, Char.ofNat 125]) =
      _parse_json_response (fun _ => some (Json.obj [])) [Char.ofNat 123, Char.ofNat 125] ∧
     _parse_json_response (fun _ => some (Json.obj []))
        (plainFenced [Char.ofNat 123, Char.ofNat 125]) =
      _parse_json_response (fun _ => some (Json.obj [])) [Char.ofNat 123, Char.ofNat 125]) :=
  ⟨rfl, rfl, C8_fence_roundtrip (fun _ => some (Json.obj [])) [Char.ofNat 123, Char.ofNat 125] rfl rfl⟩


end Katana
